import Mathlib

set_option synthInstance.maxSize 4000

/-!
Verification development for the MIND scene-prediction network
(src/planners/mind/networks/network.py).

Two embeddings of the source are developed side by side:

* a shape-level semantics of the tensor operations used by the forward
  passes (`Shape := List ℕ`, every operation is an `Option Shape` that
  mirrors the success/error behaviour of the corresponding torch call);
* a value-level semantics over `ℝ` of the mathematical parts that the
  claims are about (Bezier/monomial basis matrices, softmax), plus
  abstract functional models of the per-scene loops (FusionNet forward,
  SceneDecoder forward, RelaFusion layers) in which the learned modules
  are opaque parameters and only the data flow is concrete.

Floating point is embedded as `ℝ`; machine-float rounding is outside the
scope of the claims considered here (all claims are about shapes, exact
basis algebra, or structural data flow).
-/

/-! ## Shape-level tensor calculus

A tensor shape is its list of dimensions.  Every operation returns
`none` exactly when the corresponding torch operation raises.
-/

abbrev Shape := List ℕ

/-- `nn.Linear(dIn, dOut)` applied to a tensor: the last dimension must
equal `dIn` and is replaced by `dOut`.  The `LayerNorm`/`ReLU` modules
that follow every `Linear` in the source's `nn.Sequential`s preserve the
shape, so a Sequential of Linear/LayerNorm/ReLU blocks is modelled by the
composition of its `Linear`s. -/
def linearShape (dIn dOut : ℕ) : Shape → Option Shape
  | [] => none
  | [d] => if d = dIn then some [dOut] else none
  | d :: rest => (linearShape dIn dOut rest).map (d :: ·)

/-- Two-Linear Sequential (e.g. `actor_proj`, `ctx_proj`, `proj_tgt`,
`fc1`/`fc2` of `PointAggregateBlock`). -/
def mlp2Shape (d1 d2 d3 : ℕ) (s : Shape) : Option Shape :=
  (linearShape d1 d2 s).bind (linearShape d2 d3)

/-- Three-Linear Sequential (e.g. `cls`, `reg`). -/
def mlp3Shape (d1 d2 d3 d4 : ℕ) (s : Shape) : Option Shape :=
  ((linearShape d1 d2 s).bind (linearShape d2 d3)).bind (linearShape d3 d4)

/-- `torch.cat([a, b], dim=-1)`: all leading dimensions must agree, last
dimensions add. -/
def catLastShape : Shape → Shape → Option Shape
  | [a], [b] => some [a + b]
  | a :: s, b :: t => if a = b then (catLastShape s t).map (a :: ·) else none
  | _, _ => none

/-- `torch.cat([a, b], dim=0)` for tensors of rank at least 1. -/
def catDim0Shape : Shape → Shape → Option Shape
  | a :: s, b :: t => if s = t then some ((a + b) :: s) else none
  | _, _ => none

/-- `t.permute(1, 0, 2)` on a rank-3 tensor. -/
def permute102S : Shape → Option Shape
  | [a, b, c] => some [b, a, c]
  | _ => none

/-- `t.permute(1, 0, 2, 3)` on a rank-4 tensor. -/
def permute1023S : Shape → Option Shape
  | [a, b, c, d] => some [b, a, c, d]
  | _ => none

/-- `t.permute(1, 0)` on a rank-2 tensor. -/
def permute10S : Shape → Option Shape
  | [a, b] => some [b, a]
  | _ => none

/-- `torch.matmul(M, t)` where `M` is a fixed `(p, q)` matrix and `t` is a
rank-4 tensor: batched matmul over the last two dimensions, `M` broadcast
over the leading batch dimensions. -/
def matmulLeft4 (p q : ℕ) : Shape → Option Shape
  | [a, b, c, d] => if c = q then some [a, b, p, d] else none
  | _ => none

/-- `t[..., :k]`: torch slicing clamps, the last dimension becomes
`min k last`. -/
def sliceLastTake (k : ℕ) : Shape → Option Shape
  | [] => none
  | [d] => some [min k d]
  | d :: rest => (sliceLastTake k rest).map (d :: ·)

/-- `t[..., k:]`: the last dimension becomes `last - k` (clamped at 0,
as in torch). -/
def sliceLastFrom (k : ℕ) : Shape → Option Shape
  | [] => none
  | [d] => some [d - k]
  | d :: rest => (sliceLastFrom k rest).map (d :: ·)

/-- `t[:, :, 1:, :]` on a rank-4 tensor (used for the monomial velocity). -/
def sliceDim2From1 : Shape → Option Shape
  | [a, b, c, d] => some [a, b, c - 1, d]
  | _ => none

/-- `torch.diff(t, dim=2)` on a rank-4 tensor: needs a non-empty
difference axis. -/
def diffDim2 : Shape → Option Shape
  | [a, b, c, d] => if 1 ≤ c then some [a, b, c - 1, d] else none
  | _ => none

/-- `torch.gradient(t, dim=-2)[0]` on a rank-4 tensor: central finite
differences, requires at least two samples along the axis, preserves the
shape. -/
def gradientDim2 : Shape → Option Shape
  | [a, b, c, d] => if 2 ≤ c then some [a, b, c, d] else none
  | _ => none

/-- `t.view(m, -1, k, 5)`: the inferred dimension must divide evenly and
the known part must be non-zero. -/
def viewM1K5 (m k : ℕ) (s : Shape) : Option Shape :=
  let tot := s.prod
  let d := m * k * 5
  if d ≠ 0 ∧ d ∣ tot then some [m, tot / d, k, 5] else none

/-- `t.view(-1, m, h)`. -/
def view1MH (m h : ℕ) (s : Shape) : Option Shape :=
  let tot := s.prod
  let d := m * h
  if d ≠ 0 ∧ d ∣ tot then some [tot / d, m, h] else none

/-- `t.view(m, -1)`. -/
def viewM1 (m : ℕ) (s : Shape) : Option Shape :=
  let tot := s.prod
  if m ≠ 0 ∧ m ∣ tot then some [m, tot / m] else none

/-- Equal-rank elementwise broadcasting (as used by the decoder's
`cls_embed + actor_embed + tgt_embed`, whose operands all have rank 3). -/
def broadcast2 : Shape → Shape → Option Shape
  | [], [] => some []
  | a :: s, b :: t =>
    if a = b then (broadcast2 s t).map (a :: ·)
    else if a = 1 then (broadcast2 s t).map (b :: ·)
    else if b = 1 then (broadcast2 s t).map (a :: ·)
    else none
  | _, _ => none

/-- `t[i]` row indexing on the first dimension. -/
def rowAt (s : Shape) (i : ℕ) : Option Shape :=
  match s with
  | n :: rest => if i < n then some rest else none
  | [] => none

/-- `t[idcs]` advanced indexing with an index list: every index must be
in range; the first dimension becomes the number of indices. -/
def gatherRowsS (s : Shape) (idcs : List ℕ) : Option Shape :=
  match s with
  | n :: rest => if idcs.all (· < n) then some (idcs.length :: rest) else none
  | [] => none

/-- `t.unsqueeze(0)`. -/
def unsq0 (s : Shape) : Shape := 1 :: s

/-- `t.squeeze()` with no argument removes every dimension of size 1. -/
def squeezeAllS (s : Shape) : Shape := s.filter (· ≠ 1)

/-- `F.softmax(t, dim=d)`: the dimension must exist; shape preserved. -/
def softmaxDimS (d : ℕ) (s : Shape) : Option Shape :=
  if d < s.length then some s else none

/-- In-place broadcast assignment `target[0] = value` where `value` must
broadcast into one first-dimension slot of `target` (used for
`tgt_embed[0] = tgt[idx].unsqueeze(0)`). -/
def bcastInto : Shape → Shape → Bool
  | [], [] => true
  | a :: s, b :: t => (a = b || a = 1) && bcastInto s t
  | _, _ => false

def setRow0 (target value : Shape) : Option Unit :=
  match target with
  | n :: rest => if 1 ≤ n ∧ bcastInto value rest then some () else none
  | [] => none

/-! ## SceneDecoder: shape semantics

Mirrors `SceneDecoder.__init__` and `SceneDecoder.forward`.  The
`N_ORDER` attribute is assigned by `__init__` only in the `bezier` and
`monomial` branches; reading it with `param_out='none'` raises
`AttributeError`, which the embedding renders as `N_ORDER_opt … = none`.
-/

inductive ParamOut
  | bezier
  | monomial
  | pnone
  deriving DecidableEq

structure SceneDecoderCfg where
  param_out : ParamOut
  hidden_size : ℕ
  future_steps : ℕ
  num_modes : ℕ

/-- The `N_ORDER` attribute as left by `SceneDecoder.__init__`:
present (7) for the basis parameterizations, absent for `'none'`. -/
def N_ORDER_opt : ParamOut → Option ℕ
  | ParamOut.bezier => some 7
  | ParamOut.monomial => some 7
  | ParamOut.pnone => none

/-- Output width of the last `Linear` of `self.reg`, per
`SceneDecoder.__init__`. -/
def regHeadOut (cfg : SceneDecoderCfg) : ℕ :=
  match cfg.param_out with
  | ParamOut.bezier => (7 + 1) * 5
  | ParamOut.monomial => (7 + 1) * 5
  | ParamOut.pnone => cfg.future_steps * 5

/-- TransformerEncoder `ctx_sat` (d_model = hidden, nhead = 4): shape
preserving on a rank-3 input whose embed dimension matches; the
MultiheadAttention inside requires `4 ∣ hidden`. -/
def ctxSatShape (h : ℕ) : Shape → Option Shape
  | [a, b, e] => if e = h ∧ h % 4 = 0 then some [a, b, e] else none
  | _ => none

/-- Mode expansion used for both `ctx_proj` and `actor_proj` paths:
MLP to `hidden·modes`, reshape `view(-1, modes, hidden)`, and
`permute(1, 0, 2)` (lines 501, 504). -/
def modeExpandShape (h m : ℕ) (s : Shape) : Option Shape := do
  let x ← mlp2Shape h (h * m / 2) (h * m) s
  let x ← view1MH m h x
  permute102S x

/-- Lines 498-504: context path (through `ctx_sat`) and actor path. -/
def decEmbedPaths (cfg : SceneDecoderCfg) (ctx actors : Shape)
    (idx : ℕ) (a_idcs : List ℕ) : Option (Shape × Shape) := do
  let h := cfg.hidden_size
  let ctxRow ← rowAt ctx idx
  let ce ← modeExpandShape h cfg.num_modes (unsq0 ctxRow)
  let cls_embed ← ctxSatShape h ce
  let _actors ← gatherRowsS actors a_idcs
  let actor_embed ← modeExpandShape h cfg.num_modes _actors
  pure (cls_embed, actor_embed)

/-- Lines 506-510: `tgt_embed = zeros_like(actor_embed)`,
`tgt_embed[0] = tgt[idx].unsqueeze(0)`, then the broadcast sum
`cls_embed + actor_embed + tgt_embed`. -/
def decSumShape (tgt : Shape) (idx : ℕ) (cls_embed actor_embed : Shape) :
    Option Shape := do
  let tgtRow ← rowAt tgt idx
  let _ ← setRow0 actor_embed (unsq0 tgtRow)
  let e1 ← broadcast2 cls_embed actor_embed
  broadcast2 e1 actor_embed

/-- Line 512: classification head on the context path,
`self.cls(cls_embed).view(self.num_modes, -1)`. -/
def decClsShape (cfg : SceneDecoderCfg) (cls_embed : Shape) : Option Shape := do
  let h := cfg.hidden_size
  let c ← mlp3Shape h h h 1 cls_embed
  viewM1 cfg.num_modes c

/-- Lines 514-523 (`bezier`), position/covariance part. -/
def bezierPosShape (cfg : SceneDecoderCfg) (param : Shape) :
    Option (Shape × Shape × Shape) := do
  let reg_param ← sliceLastTake 2 param
  let reg_param ← permute1023S reg_param
  let reg ← matmulLeft4 cfg.future_steps (7 + 1) reg_param
  let dif ← diffDim2 reg_param
  let vel ← matmulLeft4 cfg.future_steps 7 dif
  pure (reg, vel, reg_param)

/-- Lines 520-523 / 531-534: covariance part, shared by `bezier` and
`monomial`. -/
def covPartShape (cfg : SceneDecoderCfg) (param : Shape) :
    Option (Shape × Shape) := do
  let cov_param ← sliceLastFrom 2 param
  let cov_param ← permute1023S cov_param
  let cov ← matmulLeft4 cfg.future_steps (7 + 1) cov_param
  let difc ← diffDim2 cov_param
  let cov_vel ← matmulLeft4 cfg.future_steps 7 difc
  pure (cov, cov_vel)

/-- The `bezier` branch (lines 514-523). -/
def bezierBranchShape (cfg : SceneDecoderCfg) (embed : Shape) :
    Option (Shape × Shape × Shape × Shape × Option Shape) := do
  let h := cfg.hidden_size
  let p ← mlp3Shape h h h ((7 + 1) * 5) embed
  let param ← viewM1K5 cfg.num_modes (7 + 1) p
  let (reg, vel, _) ← bezierPosShape cfg param
  let (cov, cov_vel) ← covPartShape cfg param
  pure (reg, cov, vel, cov_vel, some param)

/-- The `monomial` branch (lines 525-534): like `bezier` but the velocity
matrix is applied to `reg_param[:, :, 1:, :]` instead of control-point
differences. -/
def monomialBranchShape (cfg : SceneDecoderCfg) (embed : Shape) :
    Option (Shape × Shape × Shape × Shape × Option Shape) := do
  let h := cfg.hidden_size
  let p ← mlp3Shape h h h ((7 + 1) * 5) embed
  let param ← viewM1K5 cfg.num_modes (7 + 1) p
  let reg_param ← sliceLastTake 2 param
  let reg_param ← permute1023S reg_param
  let reg ← matmulLeft4 cfg.future_steps (7 + 1) reg_param
  let sl ← sliceDim2From1 reg_param
  let vel ← matmulLeft4 cfg.future_steps 7 sl
  let (cov, cov_vel) ← covPartShape cfg param
  pure (reg, cov, vel, cov_vel, some param)

/-- The `'none'` branch (lines 536-543).  The read of `self.N_ORDER`
(line 537) is `N_ORDER_opt cfg.param_out`, which is `none` here because
`__init__` never assigns the attribute for `param_out='none'`
(AttributeError in the source). -/
def noneBranchShape (cfg : SceneDecoderCfg) (embed : Shape) :
    Option (Shape × Shape × Shape × Shape × Option Shape) := do
  let h := cfg.hidden_size
  let p ← mlp3Shape h h h (cfg.future_steps * 5) embed
  let nOrd ← N_ORDER_opt cfg.param_out
  let param ← viewM1K5 cfg.num_modes (nOrd + 1) p
  let reg ← sliceLastTake 2 param
  let reg ← permute1023S reg
  let vel ← gradientDim2 reg
  let cov ← sliceLastFrom 2 param
  let cov ← permute1023S cov
  let cov_vel ← gradientDim2 cov
  pure (reg, cov, vel, cov_vel, none)

def branchShape (cfg : SceneDecoderCfg) (embed : Shape) :
    Option (Shape × Shape × Shape × Shape × Option Shape) :=
  match cfg.param_out with
  | ParamOut.bezier => bezierBranchShape cfg embed
  | ParamOut.monomial => monomialBranchShape cfg embed
  | ParamOut.pnone => noneBranchShape cfg embed

/-- One iteration of the scene loop in `SceneDecoder.forward`
(lines 497-554), at shape level.  Returns
(probabilities, trajectories, (velocity, variance-velocity, raw-params)). -/
def SceneDecoder_scene_shape (cfg : SceneDecoderCfg)
    (ctx tgt actors : Shape) (idx : ℕ) (a_idcs : List ℕ) :
    Option (Shape × Shape × (Shape × Shape × Option Shape)) := do
  let (cls_embed, actor_embed) ← decEmbedPaths cfg ctx actors idx a_idcs
  let embed ← decSumShape tgt idx cls_embed actor_embed
  let cls ← decClsShape cfg cls_embed
  let (reg, cov, vel, cov_vel, auxParam) ← branchShape cfg embed
  let regOut ← catLastShape reg cov
  let cls ← permute10S cls
  let cls ← softmaxDimS 1 cls
  pure (cls, regOut, (vel, cov_vel, auxParam))

/-- `self.proj_rpe` (lines 383-387): despite the comment there saying
`rpe_dim = 11`, the first `Linear` is constructed with `5 * 2 * 2 = 20`
input features. -/
def SceneDecoder_proj_rpe_shape (h : ℕ) (s : Shape) : Option Shape :=
  linearShape (5 * 2 * 2) h s

/-- `SceneDecoder.forward` at shape level: project the target RPE,
unsqueeze a 1-D `tgt_feat`, fuse target feature and RPE (`proj_tgt`),
then run the scene loop. -/
def SceneDecoder_forward_shape (cfg : SceneDecoderCfg)
    (ctx actors tgt_feat tgt_rpes : Shape) (actor_idcs : List (List ℕ)) :
    Option (List Shape × List Shape × List (Shape × Shape × Option Shape)) := do
  let h := cfg.hidden_size
  let tr ← SceneDecoder_proj_rpe_shape h tgt_rpes
  let tf := if tgt_feat.length = 1 then unsq0 tgt_feat else tgt_feat
  let tc ← catLastShape tf tr
  let tgt ← mlp2Shape (2 * h) h h tc
  let outs ← (actor_idcs.enum).mapM
    (fun p => SceneDecoder_scene_shape cfg ctx tgt actors p.1 p.2)
  pure (outs.map (·.1), outs.map (·.2.1), outs.map (·.2.2))

/-! ## LaneNet and PointAggregateBlock: shape semantics -/

/-- `nn.LayerNorm(h)` as a standalone module (`self.norm` of
`PointAggregateBlock`): last dimension must be `h`, shape preserved. -/
def lnShape (h : ℕ) (s : Shape) : Option Shape :=
  if s.getLast? = some h then some s else none

/-- `_global_maxpool_aggre`: permute, `adaptive_max_pool1d(·, 1)`,
permute back; the pooled axis must be non-empty. -/
def globalMaxPoolShape : Shape → Option Shape
  | [l, p, d] => if 1 ≤ p then some [l, 1, d] else none
  | _ => none

/-- `x.shape[1]` of a rank-3 tensor. -/
def dim1 : Shape → Option ℕ
  | [_, p, _] => some p
  | _ => none

/-- `t.repeat([1, p, 1])` on a rank-3 tensor. -/
def repeatDim1 (p : ℕ) : Shape → Option Shape
  | [l, q, d] => some [l, q * p, d]
  | _ => none

/-- `PointAggregateBlock.forward` (lines 90-99) at shape level. -/
def PointAggregateBlock_shape (h : ℕ) (aggreOut : Bool) (x_inp : Shape) :
    Option Shape := do
  let x ← mlp2Shape h h h x_inp
  let xAggre ← globalMaxPoolShape x
  let p ← dim1 x
  let xRep ← repeatDim1 p xAggre
  let xCat ← catLastShape x xRep
  let f2 ← mlp2Shape (h * 2) h h xCat
  let s ← broadcast2 x_inp f2
  let out ← lnShape h s
  if aggreOut then do
    let m ← globalMaxPoolShape out
    pure (squeezeAllS m)
  else
    pure out

/-- `LaneNet.forward` (lines 117-121) at shape level: point projection,
then the two aggregation blocks (`aggre_out` false then true). -/
def LaneNet_shape (in_size h : ℕ) (feats : Shape) : Option Shape := do
  let x ← linearShape in_size h feats
  let x ← PointAggregateBlock_shape h false x
  PointAggregateBlock_shape h true x

/-! ## ActorNet: shape semantics -/

/-- Modelled from the spec: `Res1d` and `Conv1d` live in
`planners.mind.networks.layers`, which is not among the sources.  Per
spec §4.1 they are 1-D convolutional blocks (kernel 3, padding 1) that
map the channel dimension from `nIn` to `nOut` and divide the temporal
length by the stride (ceiling division), preserving it at stride 1. -/
def Res1d_shape (nIn nOut stride : ℕ) : Shape → Option Shape
  | [a, c, t] =>
    if c = nIn ∧ 1 ≤ stride then some [a, nOut, (t + stride - 1) / stride]
    else none
  | _ => none

/-- Modelled from the spec: shape behaviour of `Conv1d` (see
`Res1d_shape`). -/
def Conv1d_shape (nIn nOut stride : ℕ) : Shape → Option Shape
  | [a, c, t] =>
    if c = nIn ∧ 1 ≤ stride then some [a, nOut, (t + stride - 1) / stride]
    else none
  | _ => none

/-- `F.interpolate(out, scale_factor=2, mode="linear")`. -/
def interpolate2Shape : Shape → Option Shape
  | [a, c, t] => some [a, c, 2 * t]
  | _ => none

/-- `out[:, :, -1]`: last-timestep slice, temporal axis must be
non-empty. -/
def lastStepShape : Shape → Option Shape
  | [a, c, t] => if 1 ≤ t then some [a, c] else none
  | _ => none

/-- The residual groups of `ActorNet.forward` (lines 50-53): group `i`
is two `Res1d` blocks, the first with stride 2 except at `i = 0`,
channels `2^(5+i)`. -/
def actorGroupsShape (n_in n_fpn : ℕ) (s : Shape) :
    Option (Shape × List Shape × ℕ) :=
  (List.range n_fpn).foldlM
    (fun st i => do
      let nOut := 2 ^ (5 + i)
      let x1 ← Res1d_shape st.2.2 nOut (if i = 0 then 1 else 2) st.1
      let x2 ← Res1d_shape nOut nOut 1 x1
      pure (x2, st.2.1 ++ [x2], nOut))
    (s, ([] : List Shape), n_in)

/-- The top-down lateral fusion of `ActorNet.forward` (lines 55-58). -/
def actorFPNShape (hidden n_fpn : ℕ) (outs : List Shape) : Option Shape := do
  let lastOut ← outs.getLast?
  let out0 ← Conv1d_shape (2 ^ (5 + (n_fpn - 1))) hidden 1 lastOut
  ((List.range (n_fpn - 1)).reverse).foldlM
    (fun out i => do
      let out2 ← interpolate2Shape out
      let oi ← outs.get? i
      let li ← Conv1d_shape (2 ^ (5 + i)) hidden 1 oi
      broadcast2 out2 li)
    out0

/-- `ActorNet.forward` (lines 47-61) at shape level. -/
def ActorNet_shape (n_in hidden n_fpn : ℕ) (s : Shape) : Option Shape := do
  let (_, outs, _) ← actorGroupsShape n_in n_fpn s
  let out ← actorFPNShape hidden n_fpn outs
  let out ← Res1d_shape hidden hidden 1 out
  lastStepShape out

/-! ## RelaFusion and FusionNet: shape semantics -/

/-- `MultiheadAttention` call of `_mha_block` with `batch_first=False`:
query `(1, N, d)`, key/value `(N, N, d)`; the embed dimension must be
`d_model` and divisible by the head count (asserted at construction). -/
def mhaShape (d heads : ℕ) (q kv : Shape) : Option Shape :=
  match q, kv with
  | [a, n, e], [m, n2, e2] =>
    if e = d ∧ e2 = d ∧ n = n2 ∧ m = m ∧ heads ≠ 0 ∧ d % heads = 0 then
      some [a, n, e]
    else none
  | _, _ => none

/-- `RelaFusionLayer._build_memory` (lines 182-204) at shape level. -/
def buildMemoryShape (d_model d_edge : ℕ) (updE : Bool) (node edge : Shape) :
    Option (Shape × Shape × Shape) :=
  match node with
  | [n, d] => do
    let srcx := [n, n, d]
    let tarx := [n, n, d]
    let c1 ← catLastShape edge srcx
    let c2 ← catLastShape c1 tarx
    let memory ← linearShape (d_model + d_model + d_edge) d_model c2
    let edge2 ←
      if updE then do
        let pe ← linearShape d_model d_edge memory
        broadcast2 edge pe
      else pure edge
    pure (unsq0 node, edge2, memory)
  | _ => none

/-- `RelaFusionLayer.forward` (lines 165-180) at shape level: memory
build, attention block, residual + squeeze, feed-forward block. -/
def RelaFusionLayer_shape (d_model d_edge heads : ℕ) (updE : Bool)
    (node edge : Shape) : Option (Shape × Shape) := do
  let (x, edge2, memory) ← buildMemoryShape d_model d_edge updE node edge
  let xp ← mhaShape d_model heads x memory
  let xadd ← broadcast2 x xp
  let x2 := squeezeAllS xadd
  let f1 ← linearShape d_model (d_model * 2) x2
  let f2 ← linearShape (d_model * 2) d_model f1
  let out ← broadcast2 x2 f2
  pure (out, edge2)

/-- `RelaFusionNet` (lines 235-268) at shape level: `n_layer` stacked
layers; the edge update flag of layer `i` is forced to `False` on the
final layer. -/
def RelaFusionNet_shape (d_model d_edge heads nLayer : ℕ) (updateEdge : Bool)
    (node edge : Shape) : Option Shape := do
  let res ← (List.range nLayer).foldlM
    (fun (st : Shape × Shape) i =>
      RelaFusionLayer_shape d_model d_edge heads
        (if i = nLayer - 1 then false else updateEdge) st.1 st.2)
    (node, edge)
  pure res.1

/-- `rpes['scene'].permute(1, 2, 0)`. -/
def permute120S : Shape → Option Shape
  | [a, b, c] => some [b, c, a]
  | _ => none

/-- First dimension of a tensor. -/
def dim0 : Shape → Option ℕ
  | n :: _ => some n
  | [] => none

/-- The block assignment `rpe_with_cls[:N, :N, :] = rpe` succeeds only
when `rpe` has shape `(N, N, d_rpe)`. -/
def assignBlock (value : Shape) (n d : ℕ) : Option Unit :=
  if value = [n, n, d] then some () else none

structure FusionCfg where
  d_actor : ℕ
  d_lane : ℕ
  d_embed : ℕ
  d_rpe_in : ℕ
  d_rpe : ℕ
  n_scene_head : ℕ
  n_scene_layer : ℕ
  update_edge : Bool

/-- One iteration of the scene loop of `FusionNet.forward`
(lines 318-336) at shape level. -/
def FusionNet_scene_shape (cfg : FusionCfg) (actors lanes : Shape)
    (aI lI : List ℕ) (rpeScene : Shape) : Option (Shape × Shape × Shape) := do
  let _actors ← gatherRowsS actors aI
  let _lanes ← gatherRowsS lanes lI
  let tokens ← catDim0Shape _actors _lanes
  let tokensCls ← catDim0Shape tokens [1, cfg.d_embed]
  let rpe0 ← permute120S rpeScene
  let rpe ← linearShape cfg.d_rpe_in cfg.d_rpe rpe0
  let nTok ← dim0 tokens
  let nCls ← dim0 tokensCls
  let _ ← assignBlock rpe nTok cfg.d_rpe
  let out ← RelaFusionNet_shape cfg.d_embed cfg.d_rpe cfg.n_scene_head
    cfg.n_scene_layer cfg.update_edge tokensCls [nCls, nCls, cfg.d_rpe]
  match out with
  | [nO, dO] =>
    if 1 ≤ nO then
      some ([min aI.length nO, dO], [nO - 1 - aI.length, dO], [1, dO])
    else none
  | _ => none

/-- `torch.cat(list, dim=0)` over the per-scene results (errors on an
empty list, as in torch). -/
def concatRows : List Shape → Option Shape
  | [] => none
  | x :: xs => xs.foldlM catDim0Shape x

/-- `FusionNet.forward` (lines 306-340) at shape level. -/
def FusionNet_forward_shape (cfg : FusionCfg) (actors : Shape)
    (actor_idcs : List (List ℕ)) (lanes : Shape) (lane_idcs : List (List ℕ))
    (rpes : List Shape) : Option (Shape × Shape × Shape) := do
  let actors ← linearShape cfg.d_actor cfg.d_embed actors
  let lanes ← linearShape cfg.d_lane cfg.d_embed lanes
  let trip := actor_idcs.zip (lane_idcs.zip rpes)
  let outs ← trip.mapM
    (fun t => FusionNet_scene_shape cfg actors lanes t.1 t.2.1 t.2.2)
  let a ← concatRows (outs.map (·.1))
  let l ← concatRows (outs.map (·.2.1))
  let c ← concatRows (outs.map (·.2.2))
  pure (a, l, c)

/-! ## ScenePredNet: shape semantics -/

structure ScenePredCfg where
  in_actor : ℕ
  in_lane : ℕ
  n_fpn_scale : ℕ
  d_actor : ℕ
  d_lane : ℕ
  d_embed : ℕ
  d_rpe_in : ℕ
  d_rpe : ℕ
  n_scene_head : ℕ
  n_scene_layer : ℕ
  update_edge : Bool
  param_out : ParamOut
  g_pred_len : ℕ
  g_num_modes : ℕ

def ScenePredCfg.fusion (cfg : ScenePredCfg) : FusionCfg :=
  ⟨cfg.d_actor, cfg.d_lane, cfg.d_embed, cfg.d_rpe_in, cfg.d_rpe,
    cfg.n_scene_head, cfg.n_scene_layer, cfg.update_edge⟩

def ScenePredCfg.decoder (cfg : ScenePredCfg) : SceneDecoderCfg :=
  ⟨cfg.param_out, cfg.d_embed, cfg.g_pred_len, cfg.g_num_modes⟩

/-- `ScenePredNet.forward` (lines 582-595) at shape level: actor and
lane encoders, the shared lane encoder on the target node, fusion, and
the scene decoder. -/
def ScenePredNet_forward_shape (cfg : ScenePredCfg) (actors : Shape)
    (actor_idcs : List (List ℕ)) (lanes : Shape) (lane_idcs : List (List ℕ))
    (rpes : List Shape) (tgt_nodes tgt_rpe : Shape) :
    Option (List Shape × List Shape × List (Shape × Shape × Option Shape)) := do
  let a ← ActorNet_shape cfg.in_actor cfg.d_actor cfg.n_fpn_scale actors
  let l ← LaneNet_shape cfg.in_lane cfg.d_lane lanes
  let tf ← LaneNet_shape cfg.in_lane cfg.d_lane tgt_nodes
  let (a2, _, cls) ← FusionNet_forward_shape cfg.fusion a actor_idcs l lane_idcs rpes
  SceneDecoder_forward_shape cfg.decoder cls a2 tf tgt_rpe actor_idcs

/-! ## Value-level semantics: basis matrices, trajectories, softmax

The float arithmetic of the source is embedded as `ℝ`.  The matrices are
exactly `_get_T_matrix_bezier`, `_get_Tp_matrix_bezier`,
`_get_T_matrix_monomial` (lines 449-481): `np.linspace(0, 1, n_step)`
sample `j` is `j / (n_step - 1)`, and entry `(j, i)` of each matrix is
the corresponding basis coefficient. -/

noncomputable section

/-- Sample `j` of `np.linspace(0.0, 1.0, n_step, endpoint=True)`. -/
def linT (n_step j : ℕ) : ℝ := (j : ℝ) / ((n_step : ℝ) - 1)

/-- Entry `(j, i)` of `_get_T_matrix_bezier(n_order, n_step)`. -/
def matT_bezier (n_order n_step j i : ℕ) : ℝ :=
  (n_order.choose i : ℝ) * (1 - linT n_step j) ^ (n_order - i) * linT n_step j ^ i

/-- Entry `(j, i)` of `_get_Tp_matrix_bezier(n_order, n_step)`. -/
def matTp_bezier (n_order n_step j i : ℕ) : ℝ :=
  (n_order : ℝ) * ((n_order - 1).choose i : ℝ) *
    (1 - linT n_step j) ^ (n_order - 1 - i) * linT n_step j ^ i

/-- Entry `(j, i)` of `_get_T_matrix_monomial(n_order, n_step)`. -/
def matT_monomial (n_step j i : ℕ) : ℝ := linT n_step j ^ i

/-- One coordinate of `torch.matmul(self.mat_T, reg_param)` in the
`bezier` branch (line 518), with `N_ORDER = 7`: position at sample `j`
from control points `P`. -/
def bezier_pos (n_step : ℕ) (P : ℕ → ℝ) (j : ℕ) : ℝ :=
  ∑ i in Finset.range (7 + 1), matT_bezier 7 n_step j i * P i

/-- One coordinate of line 519: velocity at sample `j`, the derivative
matrix applied to first differences of the control points, divided by
`future_steps * 0.1` (the matrices are built with
`n_step = future_steps`). -/
def bezier_vel (future_steps : ℕ) (P : ℕ → ℝ) (j : ℕ) : ℝ :=
  (∑ i in Finset.range 7, matTp_bezier 7 future_steps j i * (P (i + 1) - P i)) /
    ((future_steps : ℝ) * 0.1)

/-- One coordinate of `torch.matmul(self.mat_T, reg_param)` in the
`monomial` branch (line 529). -/
def monomial_pos (n_step : ℕ) (P : ℕ → ℝ) (j : ℕ) : ℝ :=
  ∑ i in Finset.range (7 + 1), matT_monomial n_step j i * P i

/-- The mathematical degree-7 Bezier curve with control points `P`
(the curve the precomputed Bernstein matrix samples). -/
def bezier_curve (P : ℕ → ℝ) (t : ℝ) : ℝ :=
  ∑ i in Finset.range (7 + 1), (Nat.choose 7 i : ℝ) * (1 - t) ^ (7 - i) * t ^ i * P i

/-- `bezier_curve` as a polynomial, for computing its derivative. -/
def bezPoly (P : ℕ → ℝ) : Polynomial ℝ :=
  ∑ i in Finset.range (7 + 1),
    Polynomial.C ((Nat.choose 7 i : ℝ) * P i) *
      (1 - Polynomial.X) ^ (7 - i) * Polynomial.X ^ i

/-- `F.softmax(z, dim=1)` on one row of `K` logits. -/
def softmax_row (K : ℕ) (z : ℕ → ℝ) (k : ℕ) : ℝ :=
  Real.exp (z k) / ∑ j in Finset.range K, Real.exp (z j)

/-- Line 548, `F.softmax(cls * 1.0, dim=1)`: the emitted mode
probabilities, a temperature-1 softmax of the classification-head
logits. -/
def SceneDecoder_probs (K : ℕ) (logits : ℕ → ℝ) (k : ℕ) : ℝ :=
  softmax_row K (fun j => logits j * 1.0) k

end

/-! ## Abstract functional models of the per-scene loops

For the structural claims (per-scene independence and ordering, edge
update gating) the learned modules are opaque; only the data flow of the
source is concrete.  Token rows live in an abstract type. -/

/-- `xs[idcs]` advanced indexing at value level: all indices must be in
range. -/
def gatherM {β : Type _} (xs : List β) (idcs : List ℕ) : Option (List β) :=
  idcs.mapM (fun i => xs.get? i)

/-- The canonical ragged index lists: scene `k` of `scenesRows` owns the
contiguous index block starting where scene `k-1` ended (offset `o`). -/
def rangesFrom {β : Type _} (o : ℕ) : List (List β) → List (List ℕ)
  | [] => []
  | x :: xs => List.range' o x.length :: rangesFrom (o + x.length) xs

/-- `FusionNet` with its learned submodules abstract: `projActor`,
`projLane` are the row-wise projections, `projRpeScene` the RPE
projection, `clsToken` the zero CLS row, `padRpe` the zero-padded
`rpe_with_cls` construction, `fuseScene` the stacked
`RelaFusionNet` applied to the tokens. -/
structure FusionNetM (α ρ : Type _) where
  projActor : α → α
  projLane : α → α
  projRpeScene : ρ → ρ
  clsToken : α
  padRpe : ρ → ℕ → ρ
  fuseScene : List α → ρ → List α

/-- One iteration of the scene loop of `FusionNet.forward`
(lines 318-336): gather the scene's rows, append the CLS token, build
the padded RPE, fuse, and slice the result back into actors / lanes /
CLS. -/
def FusionNetM.scene {α ρ : Type _} (net : FusionNetM α ρ)
    (actors lanes : List α) (aI lI : List ℕ) (rpes : ρ) :
    Option (List α × List α × List α) := do
  let _actors ← gatherM actors aI
  let _lanes ← gatherM lanes lI
  let tokens := _actors ++ _lanes
  let tokensWithCls := tokens ++ [net.clsToken]
  let rpeWithCls := net.padRpe (net.projRpeScene rpes) tokensWithCls.length
  let out := net.fuseScene tokensWithCls rpeWithCls
  pure (out.take aI.length, (out.drop aI.length).dropLast, (out.getLast?).toList)

/-- `FusionNet.forward` (lines 306-340): row-wise input projections,
scene loop over the zipped ragged indices, and concatenation of the
per-scene results in loop order. -/
def FusionNetM.forward {α ρ : Type _} (net : FusionNetM α ρ)
    (actors : List α) (actorIdcs : List (List ℕ))
    (lanes : List α) (laneIdcs : List (List ℕ)) (rpePrep : List ρ) :
    Option (List α × List α × List α) := do
  let actors := actors.map net.projActor
  let lanes := lanes.map net.projLane
  let outs ← (actorIdcs.zip (laneIdcs.zip rpePrep)).mapM
    (fun t => net.scene actors lanes t.1 t.2.1 t.2.2)
  pure ((outs.map (·.1)).flatten, (outs.map (·.2.1)).flatten, (outs.map (·.2.2)).flatten)

/-- Reference semantics of one scene processed on its own rows (no
ragged indexing): what the loop body computes for a scene
`(actor rows, lane rows, rpe)`. -/
def FusionNetM.sceneRef {α ρ : Type _} (net : FusionNetM α ρ)
    (sc : List α × List α × ρ) : List α × List α × List α :=
  let _actors := sc.1.map net.projActor
  let _lanes := sc.2.1.map net.projLane
  let tokensWithCls := _actors ++ _lanes ++ [net.clsToken]
  let out := net.fuseScene tokensWithCls
    (net.padRpe (net.projRpeScene sc.2.2) tokensWithCls.length)
  (out.take sc.1.length, (out.drop sc.1.length).dropLast, (out.getLast?).toList)

/-- `SceneDecoder` with its learned submodules abstract: `projRpe` and
`projTgt` are the row-wise target projections (lines 491-495) and
`decodeScene` is the whole body of the scene loop (lines 497-554) as a
function of `ctx[idx]`, `actors[a_idcs]` and `tgt[idx]`. -/
structure SceneDecoderM (γ δ : Type _) where
  projRpe : γ → γ
  projTgt : γ × γ → γ
  decodeScene : γ → List γ → γ → δ

/-- `SceneDecoder.forward` (lines 483-556) at this abstraction: row-wise
target fusion, then the scene loop over `enumerate(actor_idcs)`. -/
def SceneDecoderM.forward {γ δ : Type _} (net : SceneDecoderM γ δ)
    (ctx actors : List γ) (actorIdcs : List (List ℕ))
    (tgtFeat tgtRpes : List γ) : Option (List δ) := do
  let tgt := (tgtFeat.zip (tgtRpes.map net.projRpe)).map net.projTgt
  (actorIdcs.enum).mapM (fun p => do
    let c ← ctx.get? p.1
    let _actors ← gatherM actors p.2
    let tg ← tgt.get? p.1
    pure (net.decodeScene c _actors tg))

/-- Reference semantics of the decoder on one scene
`(ctx row, actor rows, tgt_feat row, tgt_rpe row)`. -/
def SceneDecoderM.sceneRef {γ δ : Type _} (net : SceneDecoderM γ δ)
    (sc : γ × List γ × γ × γ) : δ :=
  net.decodeScene sc.1 sc.2.1 (net.projTgt (sc.2.2.1, net.projRpe sc.2.2.2))

/-- `RelaFusionLayer` with learned submodules abstract; nodes are
`ℕ`-indexed rows and edges `ℕ×ℕ`-indexed, mirroring the `(N, d)` /
`(N, N, d_edge)` tensors.  `node_step` is the attention + feed-forward
node update (whose internals none of the claims concern). -/
structure RelaFusionLayerM (V E M : Type _) [Add E] where
  update_edge : Bool
  proj_memory : E → V → V → M
  proj_edge : M → E
  norm_edge : E → E
  node_step : (ℕ → V) → (ℕ → ℕ → M) → ℕ → V

/-- `RelaFusionLayer._build_memory` (lines 182-204): memory `(i, j)` is
the projection of `[edge(i,j), src_x(i,j), tar_x(i,j)]` where
`src_x[i][j] = node[j]` (unsqueeze at dim 0) and `tar_x[i][j] = node[i]`
(unsqueeze at dim 1); the edge is updated as a `norm_edge` residual only
when `update_edge` is set. -/
def RelaFusionLayerM.buildMemory {V E M : Type _} [Add E]
    (l : RelaFusionLayerM V E M) (node : ℕ → V) (edge : ℕ → ℕ → E) :
    (ℕ → V) × (ℕ → ℕ → E) × (ℕ → ℕ → M) :=
  let memory := fun i j => l.proj_memory (edge i j) (node j) (node i)
  let edge2 :=
    if l.update_edge then
      fun i j => l.norm_edge (edge i j + l.proj_edge (memory i j))
    else edge
  (node, edge2, memory)

/-- `RelaFusionLayer.forward` (lines 165-180): node update from the
memory, edge passed through from `_build_memory`. -/
def RelaFusionLayerM.forward {V E M : Type _} [Add E]
    (l : RelaFusionLayerM V E M) (node : ℕ → V) (edge : ℕ → ℕ → E) :
    (ℕ → V) × (ℕ → ℕ → E) :=
  let bm := l.buildMemory node edge
  (l.node_step bm.1 bm.2.2, bm.2.1)

/-- `RelaFusionNet.__init__` (lines 247-257): layer `i` keeps the
configured `update_edge` except on the final layer, where it is forced
off. -/
def buildRelaNet {V E M : Type _} [Add E]
    (mk : ℕ → RelaFusionLayerM V E M) (nLayer : ℕ) (ue : Bool) :
    List (RelaFusionLayerM V E M) :=
  (List.range nLayer).map
    (fun i => { mk i with update_edge := if i = nLayer - 1 then false else ue })

/-! ## Helper lemmas on the shape calculus -/

theorem viewM1K5_some {m k : ℕ} {s r : Shape} (h : viewM1K5 m k s = some r) :
    ∃ n, r = [m, n, k, 5] := by
  simp only [viewM1K5] at h
  split at h
  · exact ⟨_, (Option.some.inj h).symm⟩
  · cases h

theorem linearShape3 (dIn dOut a b : ℕ) :
    linearShape dIn dOut [a, b, dIn] = some [a, b, dOut] := by
  simp [linearShape]

theorem linearShape2 (dIn dOut a : ℕ) :
    linearShape dIn dOut [a, dIn] = some [a, dOut] := by
  simp [linearShape]

theorem catLast3_eq (a b c d : ℕ) :
    catLastShape [a, b, c] [a, b, d] = some [a, b, c + d] := by
  simp [catLastShape]

theorem catLast4_eq (a b c d e : ℕ) :
    catLastShape [a, b, c, d] [a, b, c, e] = some [a, b, c, d + e] := by
  simp [catLastShape]

theorem broadcast2_same (s : Shape) : broadcast2 s s = some s := by
  induction s with
  | nil => rfl
  | cons a t ih => simp [broadcast2, ih]

theorem bezierPosShape_eval (cfg : SceneDecoderCfg) (M n : ℕ) :
    bezierPosShape cfg [M, n, 7 + 1, 5] =
      some ([n, M, cfg.future_steps, 2], [n, M, cfg.future_steps, 2],
        [n, M, 7 + 1, 2]) := by
  simp [bezierPosShape, sliceLastTake, permute1023S, matmulLeft4, diffDim2]

theorem covPartShape_eval (cfg : SceneDecoderCfg) (M n : ℕ) :
    covPartShape cfg [M, n, 7 + 1, 5] =
      some ([n, M, cfg.future_steps, 3], [n, M, cfg.future_steps, 3]) := by
  simp [covPartShape, sliceLastFrom, permute1023S, matmulLeft4, diffDim2]

theorem branchShape_shapes (cfg : SceneDecoderCfg) (embed : Shape)
    (res : Shape × Shape × Shape × Shape × Option Shape)
    (h : branchShape cfg embed = some res) :
    ∃ n, res.1 = [n, cfg.num_modes, cfg.future_steps, 2] ∧
      res.2.1 = [n, cfg.num_modes, cfg.future_steps, 3] := by
  cases hp : cfg.param_out with
  | bezier =>
    rw [branchShape, hp] at h
    simp only [bezierBranchShape, bind, Option.bind_eq_some] at h
    obtain ⟨p, hp1, param, hv, pos, hpos, cc, hcov, h⟩ := h
    obtain ⟨n, rfl⟩ := viewM1K5_some hv
    rw [bezierPosShape_eval] at hpos
    rw [covPartShape_eval] at hcov
    cases hpos
    cases hcov
    simp only [Pure.pure, Option.some.injEq] at h
    subst h
    exact ⟨n, rfl, rfl⟩
  | monomial =>
    rw [branchShape, hp] at h
    simp only [monomialBranchShape, bind, Option.bind_eq_some] at h
    obtain ⟨p, hp1, param, hv, rp1, hrp1, rp2, hrp2, reg, hreg, sl, hsl,
      vel, hvel, cc, hcov, h⟩ := h
    obtain ⟨n, rfl⟩ := viewM1K5_some hv
    have e1 : sliceLastTake 2 [cfg.num_modes, n, 7 + 1, 5] =
        some [cfg.num_modes, n, 7 + 1, 2] := rfl
    rw [e1] at hrp1
    cases hrp1
    rw [show permute1023S [cfg.num_modes, n, 7 + 1, 2] =
      some [n, cfg.num_modes, 7 + 1, 2] from rfl] at hrp2
    cases hrp2
    rw [show matmulLeft4 cfg.future_steps (7 + 1) [n, cfg.num_modes, 7 + 1, 2] =
      some [n, cfg.num_modes, cfg.future_steps, 2] from rfl] at hreg
    cases hreg
    rw [show sliceDim2From1 [n, cfg.num_modes, 7 + 1, 2] =
      some [n, cfg.num_modes, 7, 2] from rfl] at hsl
    cases hsl
    rw [show matmulLeft4 cfg.future_steps 7 [n, cfg.num_modes, 7, 2] =
      some [n, cfg.num_modes, cfg.future_steps, 2] from rfl] at hvel
    cases hvel
    rw [covPartShape_eval] at hcov
    cases hcov
    simp only [Pure.pure, Option.some.injEq] at h
    subst h
    exact ⟨n, rfl, rfl⟩
  | pnone =>
    rw [branchShape, hp] at h
    have : noneBranchShape cfg embed = none := by
      cases hm : mlp3Shape cfg.hidden_size cfg.hidden_size cfg.hidden_size
        (cfg.future_steps * 5) embed with
      | none => simp [noneBranchShape, hm]
      | some p => simp [noneBranchShape, hm, hp, N_ORDER_opt]
    rw [this] at h
    cases h

theorem scene_reg_shape (cfg : SceneDecoderCfg) (ctx tgt actors : Shape)
    (idx : ℕ) (aI : List ℕ) (res : Shape × Shape × (Shape × Shape × Option Shape))
    (h : SceneDecoder_scene_shape cfg ctx tgt actors idx aI = some res) :
    ∃ n, res.2.1 = [n, cfg.num_modes, cfg.future_steps, 5] := by
  simp only [SceneDecoder_scene_shape, bind, Option.bind_eq_some] at h
  obtain ⟨⟨ce, ae⟩, h1, h⟩ := h
  obtain ⟨embed, h2, h⟩ := h
  obtain ⟨cls0, h3, h⟩ := h
  obtain ⟨⟨reg, cov, vel, cv, aux⟩, hbr, h⟩ := h
  obtain ⟨n, hreg, hcov⟩ := branchShape_shapes cfg embed _ hbr
  subst hreg hcov
  obtain ⟨regOut, hcat, h⟩ := h
  rw [catLast4_eq] at hcat
  obtain ⟨cls1, hperm, h⟩ := h
  obtain ⟨cls2, hsm, h⟩ := h
  simp only [Pure.pure, Option.some.injEq] at h hcat
  subst h
  exact ⟨n, by simp [← hcat]⟩

theorem mapM_mem {α β : Type _} {f : α → Option β} :
    ∀ {l : List α} {ys : List β}, l.mapM f = some ys →
      ∀ y ∈ ys, ∃ x ∈ l, f x = some y := by
  intro l
  induction l with
  | nil =>
    intro ys h y hy
    simp only [List.mapM_nil, Pure.pure, Option.some.injEq] at h
    subst h
    cases hy
  | cons a as ih =>
    intro ys h y hy
    rw [List.mapM_cons] at h
    simp only [bind, Option.bind_eq_some, Pure.pure, Option.some.injEq] at h
    obtain ⟨b, hb, ys', hys', rfl⟩ := h
    rcases List.mem_cons.mp hy with rfl | hmem
    · exact ⟨a, List.mem_cons_self a as, hb⟩
    · obtain ⟨x, hx, hfx⟩ := ih hys' y hmem
      exact ⟨x, List.mem_cons_of_mem a hx, hfx⟩

/-! ## Claim C1 -/

/-- C1 (corrected): under the `bezier` and `monomial` parameterizations
every entry of the second output list (trajectories) of
`SceneDecoder.forward` has shape `(n_targets, K, future_steps, 5)` — the
2 position channels concatenated with the exponential of all 3 remaining
regression channels, hence 5 channels per timestep, not 4 (under
`'none'` the forward never returns, see C3). -/
theorem MIND_C1_trajectory_channels (cfg : SceneDecoderCfg)
    (ctx actors tgt_feat tgt_rpes : Shape) (actor_idcs : List (List ℕ))
    (out : List Shape × List Shape × List (Shape × Shape × Option Shape))
    (h : SceneDecoder_forward_shape cfg ctx actors tgt_feat tgt_rpes actor_idcs
      = some out)
    (r : Shape) (hr : r ∈ out.2.1) :
    ∃ n, r = [n, cfg.num_modes, cfg.future_steps, 5] := by
  simp only [SceneDecoder_forward_shape, bind, Option.bind_eq_some] at h
  obtain ⟨tr, htr, h⟩ := h
  obtain ⟨tc, htc, h⟩ := h
  obtain ⟨tgt, htgt, h⟩ := h
  obtain ⟨outs, houts, h⟩ := h
  simp only [Pure.pure, Option.some.injEq] at h
  subst h
  simp only [List.mem_map] at hr
  obtain ⟨res, hres, rfl⟩ := hr
  obtain ⟨p, hp, hscene⟩ := mapM_mem houts res hres
  exact scene_reg_shape cfg ctx tgt actors p.1 p.2 res hscene

/-- Witness for C1 at the concrete bezier configuration
`hidden=8, modes=2, future=4` on a one-scene, two-target input. -/
theorem MIND_C1_trajectory_channels_witness :
    (SceneDecoder_forward_shape ⟨ParamOut.bezier, 8, 4, 2⟩
        [1, 8] [2, 8] [8] [1, 20] [[0, 1]] =
      some ([[1, 2]], [[2, 2, 4, 5]],
        [([2, 2, 4, 2], [2, 2, 4, 3], some [2, 2, 8, 5])])) ∧
    ([2, 2, 4, 5] : Shape) ∈ [([2, 2, 4, 5] : Shape)] ∧
    ∃ n, ([2, 2, 4, 5] : Shape) = [n, 2, 4, 5] :=
  ⟨by decide, by decide,
    MIND_C1_trajectory_channels ⟨ParamOut.bezier, 8, 4, 2⟩
      [1, 8] [2, 8] [8] [1, 20] [[0, 1]]
      ([[1, 2]], [[2, 2, 4, 5]],
        [([2, 2, 4, 2], [2, 2, 4, 3], some [2, 2, 8, 5])])
      (by decide) [2, 2, 4, 5] (by decide)⟩

/-- C1 counterexample to the claim as stated: at the bezier
configuration above the trajectory entry has 5 channels per timestep,
not 4. -/
theorem MIND_C1_counterexample :
    (SceneDecoder_forward_shape ⟨ParamOut.bezier, 8, 4, 2⟩
        [1, 8] [2, 8] [8] [1, 20] [[0, 1]]).map (fun o => o.2.1) =
      some [[2, 2, 4, 5]] ∧
    ¬ (SceneDecoder_forward_shape ⟨ParamOut.bezier, 8, 4, 2⟩
        [1, 8] [2, 8] [8] [1, 20] [[0, 1]]).map (fun o => o.2.1) =
      some [[2, 2, 4, 4]] := by
  constructor
  · decide
  · decide

/-! ## Claims C2 and C3: the `param_out='none'` forward crash -/

theorem branchShape_pnone (cfg : SceneDecoderCfg) (embed : Shape)
    (hp : cfg.param_out = ParamOut.pnone) : branchShape cfg embed = none := by
  rw [branchShape, hp]
  cases hm : mlp3Shape cfg.hidden_size cfg.hidden_size cfg.hidden_size
      (cfg.future_steps * 5) embed with
  | none => simp [noneBranchShape, hm]
  | some p => simp [noneBranchShape, hm, hp, N_ORDER_opt]

theorem scene_pnone_none (cfg : SceneDecoderCfg)
    (hp : cfg.param_out = ParamOut.pnone) (ctx tgt actors : Shape)
    (idx : ℕ) (aI : List ℕ) :
    SceneDecoder_scene_shape cfg ctx tgt actors idx aI = none := by
  simp only [SceneDecoder_scene_shape, bind]
  cases he : decEmbedPaths cfg ctx actors idx aI with
  | none => simp [he]
  | some pr =>
    obtain ⟨ce, ae⟩ := pr
    cases hs : decSumShape tgt idx ce ae with
    | none => simp [he, hs]
    | some embed =>
      cases hc : decClsShape cfg ce with
      | none => simp [he, hs, hc]
      | some cls => simp [he, hs, hc, branchShape_pnone cfg embed hp]

/-- C3 (code_bug): with `param_out='none'` the decoder forward never
succeeds on any batch with at least one scene — `SceneDecoder.forward`
line 537 reads `self.N_ORDER`, which `__init__` never assigns in the
`'none'` branch, so the very first scene iteration fails
(`AttributeError`).  The spec instead describes a successful reshape to
`(future_steps, 5)` waypoints. -/
theorem MIND_C3_param_none_crashes (cfg : SceneDecoderCfg)
    (hp : cfg.param_out = ParamOut.pnone)
    (ctx actors tgt_feat tgt_rpes : Shape) (actor_idcs : List (List ℕ))
    (hne : actor_idcs ≠ []) :
    SceneDecoder_forward_shape cfg ctx actors tgt_feat tgt_rpes actor_idcs
      = none := by
  obtain ⟨aI, rest, rfl⟩ : ∃ aI rest, actor_idcs = aI :: rest := by
    cases actor_idcs with
    | nil => exact absurd rfl hne
    | cons a l => exact ⟨a, l, rfl⟩
  simp only [SceneDecoder_forward_shape, bind]
  cases h1 : SceneDecoder_proj_rpe_shape cfg.hidden_size tgt_rpes with
  | none => simp [h1]
  | some tr =>
    cases h2 : catLastShape
        (if tgt_feat.length = 1 then unsq0 tgt_feat else tgt_feat) tr with
    | none => simp [h1, h2]
    | some tc =>
      cases h3 : mlp2Shape (2 * cfg.hidden_size) cfg.hidden_size
          cfg.hidden_size tc with
      | none => simp [h1, h2, h3]
      | some tgt =>
        simp [h1, h2, h3, List.enum_cons, List.mapM_cons, List.mapM.loop,
          scene_pnone_none cfg hp ctx tgt actors 0 aI]

/-- Witness for C3 at the concrete `'none'` configuration of the spec's
end-to-end example. -/
theorem MIND_C3_param_none_crashes_witness :
    ((⟨ParamOut.pnone, 8, 4, 2⟩ : SceneDecoderCfg).param_out
      = ParamOut.pnone) ∧
    (([[0, 1]] : List (List ℕ)) ≠ []) ∧
    SceneDecoder_forward_shape ⟨ParamOut.pnone, 8, 4, 2⟩
      [1, 8] [2, 8] [8] [1, 20] [[0, 1]] = none :=
  ⟨rfl, by decide,
    MIND_C3_param_none_crashes ⟨ParamOut.pnone, 8, 4, 2⟩ rfl
      [1, 8] [2, 8] [8] [1, 20] [[0, 1]] (by decide)⟩

/-- C2 (code_bug): the spec's end-to-end example (hidden 8, 1 FPN scale,
2 modes, 4 future steps, `param_out='none'`; one scene with 2 actors of
`(C=3, T=5)`, 1 lane segment, matching RPE and target tensors) does not
return the promised shapes: the forward computation fails, whether the
11-feature `TGT_RPE` of the input contract or a 20-feature one matching
`proj_rpe` is supplied.  The third conjunct shows the pipeline model
does succeed once the failure causes are avoided (2 lane segments,
`bezier`, 20-feature RPE) — with trajectories `(2, 2, 4, 5)`, not
`(2, 2, 4, 4)`, and per-scene probabilities `(1, 2)`, not `(2, 2)`. -/
theorem MIND_C2_end_to_end_example_fails :
    ScenePredNet_forward_shape
      ⟨3, 10, 1, 8, 8, 8, 5, 8, 2, 2, true, ParamOut.pnone, 4, 2⟩
      [2, 3, 5] [[0, 1]] [1, 10, 10] [[0]] [[5, 3, 3]] [1, 10, 10] [1, 11]
      = none ∧
    ScenePredNet_forward_shape
      ⟨3, 10, 1, 8, 8, 8, 5, 8, 2, 2, true, ParamOut.pnone, 4, 2⟩
      [2, 3, 5] [[0, 1]] [1, 10, 10] [[0]] [[5, 3, 3]] [1, 10, 10] [1, 20]
      = none ∧
    ScenePredNet_forward_shape
      ⟨3, 10, 1, 8, 8, 8, 5, 8, 2, 2, true, ParamOut.bezier, 4, 2⟩
      [2, 3, 5] [[0, 1]] [2, 10, 10] [[0, 1]] [[5, 4, 4]] [1, 10, 10] [1, 20]
      = some ([[1, 2]], [[2, 2, 4, 5]],
          [([2, 2, 4, 2], [2, 2, 4, 3], some [2, 2, 8, 5])]) :=
  ⟨by decide, by decide, by decide⟩

/-! ## Claim C4: the target-RPE feature width -/

/-- C4 (corrected): the decoder's RPE projection accepts 20 features
(`Linear(5 * 2 * 2, hidden)`), not 11; with a 20-feature `TGT_RPE` the
projection (and, in a basis parameterization, the whole forward)
succeeds. -/
theorem MIND_C4_rpe_projection_width (t h : ℕ) :
    SceneDecoder_proj_rpe_shape h [t, 5 * 2 * 2] = some [t, h] ∧
    (∃ out, SceneDecoder_forward_shape ⟨ParamOut.bezier, 8, 4, 2⟩
      [1, 8] [2, 8] [8] [1, 20] [[0, 1]] = some out) :=
  ⟨linearShape2 (5 * 2 * 2) h t, ⟨_, rfl⟩⟩

/-- C4 counterexample to the claim as stated: an 11-feature `TGT_RPE`
is rejected by the projection, and the decoder forward fails on it. -/
theorem MIND_C4_counterexample :
    SceneDecoder_proj_rpe_shape 8 [1, 11] = none ∧
    SceneDecoder_forward_shape ⟨ParamOut.bezier, 8, 4, 2⟩
      [1, 8] [2, 8] [8] [1, 11] [[0, 1]] = none :=
  ⟨by decide, by decide⟩

/-! ## Claim C6: the lane encoder output shape -/

theorem mlp2_3d (d1 d2 d3 a b : ℕ) :
    mlp2Shape d1 d2 d3 [a, b, d1] = some [a, b, d3] := by
  simp [mlp2Shape, linearShape3]

theorem PAB_false (h L : ℕ) :
    PointAggregateBlock_shape h false [L, 10, h] = some [L, 10, h] := by
  simp [PointAggregateBlock_shape, mlp2_3d, globalMaxPoolShape, dim1,
    repeatDim1, catLast3_eq, mul_two, broadcast2_same, lnShape,
    List.getLast?]

theorem PAB_true (h L : ℕ) (h1 : L ≠ 1) (h2 : h ≠ 1) :
    PointAggregateBlock_shape h true [L, 10, h] = some [L, h] := by
  simp [PointAggregateBlock_shape, mlp2_3d, globalMaxPoolShape, dim1,
    repeatDim1, catLast3_eq, mul_two, broadcast2_same, lnShape,
    List.getLast?, squeezeAllS, List.filter, h1, h2]

/-- C6 (corrected): the lane feature encoder maps `(L, 10, F)` to
`(L, hidden_size)` for every `L ≥ 2` (and `hidden_size ≥ 2`), but not in
the `L = 1` case: the unqualified `.squeeze()` of the final
`PointAggregateBlock` then also drops the segment dimension, returning
shape `(hidden_size,)`. -/
theorem MIND_C6_lane_encoder_shape (L insz h : ℕ) (hL : 2 ≤ L) (hh : 2 ≤ h) :
    LaneNet_shape insz h [L, 10, insz] = some [L, h] := by
  have h1 : L ≠ 1 := by omega
  have h2 : h ≠ 1 := by omega
  simp [LaneNet_shape, linearShape3, PAB_false, PAB_true h L h1 h2]

/-- Witness for C6 with three segments. -/
theorem MIND_C6_lane_encoder_shape_witness :
    (2 ≤ 3) ∧ (2 ≤ 8) ∧ LaneNet_shape 10 8 [3, 10, 10] = some [3, 8] :=
  ⟨by decide, by decide,
    MIND_C6_lane_encoder_shape 3 10 8 (by decide) (by decide)⟩

/-- C6 counterexample to the claim as stated: at `L = 1` the encoder
returns a 1-D `(hidden,)` tensor, not `(1, hidden)`. -/
theorem MIND_C6_counterexample :
    LaneNet_shape 10 8 [1, 10, 10] = some [8] ∧
    LaneNet_shape 10 8 [1, 10, 10] ≠ some [1, 8] :=
  ⟨by decide, by decide⟩

/-! ## Claim C5: boundary interpolation of the basis matrices -/

theorem linT_zero (n_step : ℕ) : linT n_step 0 = 0 := by
  simp [linT]

theorem linT_last (n_step : ℕ) (h : 2 ≤ n_step) :
    linT n_step (n_step - 1) = 1 := by
  unfold linT
  have hc : ((n_step - 1 : ℕ) : ℝ) = (n_step : ℝ) - 1 := by
    rw [Nat.cast_sub (by omega : 1 ≤ n_step), Nat.cast_one]
  have hne : (n_step : ℝ) - 1 ≠ 0 := by
    have : (2 : ℝ) ≤ (n_step : ℝ) := by exact_mod_cast h
    linarith
  rw [hc, div_self hne]

/-- C5 (corrected): with at least two samples, the bezier trajectory
interpolates both endpoints — position at the first sample is the first
control point and at the last sample the last control point; the
monomial basis interpolates only the first endpoint (the constant
coefficient), while at the last sample it evaluates to the sum of all
coefficients, not the last one. -/
theorem MIND_C5_basis_endpoints (n_step : ℕ) (h2 : 2 ≤ n_step) (P : ℕ → ℝ) :
    bezier_pos n_step P 0 = P 0 ∧
    bezier_pos n_step P (n_step - 1) = P 7 ∧
    monomial_pos n_step P 0 = P 0 ∧
    monomial_pos n_step P (n_step - 1) = ∑ i in Finset.range (7 + 1), P i := by
  have t0 := linT_zero n_step
  have t1 := linT_last n_step h2
  refine ⟨?_, ?_, ?_, ?_⟩
  · norm_num [bezier_pos, matT_bezier, t0, Finset.sum_range_succ]
  · norm_num [bezier_pos, matT_bezier, t1, Finset.sum_range_succ]
  · norm_num [monomial_pos, matT_monomial, t0, Finset.sum_range_succ]
  · norm_num [monomial_pos, matT_monomial, t1, Finset.sum_range_succ]

/-- Witness for C5 with four samples and control points `P i = i`. -/
theorem MIND_C5_basis_endpoints_witness :
    (2 ≤ 4) ∧
    (bezier_pos 4 (fun i => (i : ℝ)) 0 = ((0 : ℕ) : ℝ) ∧
     bezier_pos 4 (fun i => (i : ℝ)) (4 - 1) = ((7 : ℕ) : ℝ) ∧
     monomial_pos 4 (fun i => (i : ℝ)) 0 = ((0 : ℕ) : ℝ) ∧
     monomial_pos 4 (fun i => (i : ℝ)) (4 - 1) =
       ∑ i in Finset.range (7 + 1), (i : ℝ)) :=
  ⟨by decide, MIND_C5_basis_endpoints 4 (by decide) (fun i => (i : ℝ))⟩

/-- C5 counterexample to the claim as stated: for the monomial basis the
position at the last sample differs from the last control point
(coefficients `0,1,0,…,0` give position 1 at `t = 1` but last
coefficient 0). -/
theorem MIND_C5_counterexample :
    monomial_pos 2 (fun i => if i = 1 then (1 : ℝ) else 0) 1 ≠
      (fun i => if i = 1 then (1 : ℝ) else 0) 7 := by
  have t1 : linT 2 1 = 1 := linT_last 2 (by norm_num)
  norm_num [monomial_pos, matT_monomial, t1, Finset.sum_range_succ]

/-! ## Claim C8: probability normalization -/

/-- C8 (confirmed): for every `K ≥ 1` and any classification-head
logits, the emitted probabilities — the temperature-1 softmax along the
mode axis — sum to 1 over the `K` modes (exactly, in the real
semantics). -/
theorem MIND_C8_probabilities_sum (K : ℕ) (hK : 1 ≤ K) (logits : ℕ → ℝ) :
    ∑ k in Finset.range K, SceneDecoder_probs K logits k = 1 := by
  unfold SceneDecoder_probs softmax_row
  rw [← Finset.sum_div]
  apply div_self
  have hpos : 0 < ∑ j in Finset.range K, Real.exp (logits j * 1.0) :=
    Finset.sum_pos (fun j _ => Real.exp_pos _)
      (Finset.nonempty_range_iff.mpr (by omega))
  exact ne_of_gt hpos

/-- Witness for C8 with two modes and zero logits. -/
theorem MIND_C8_probabilities_sum_witness :
    (1 ≤ 2) ∧
    ∑ k in Finset.range 2, SceneDecoder_probs 2 (fun _ => (0 : ℝ)) k = 1 :=
  ⟨by decide, MIND_C8_probabilities_sum 2 (by decide) (fun _ => (0 : ℝ))⟩

/-! ## Claim C9: edge updates are disabled on the final fusion layer -/

/-- C9 (confirmed): in the stacked relational fusion network the final
layer's `update_edge` flag is forced off, so it returns its edge tensor
unchanged; every earlier layer keeps the configured flag, and a layer
with the flag on replaces `edge(i,j)` by the layer-normalized residual
of its projection from the pairwise memory. -/
theorem MIND_C9_edge_update_gating {V E M : Type} [Add E]
    (mk : ℕ → RelaFusionLayerM V E M) (nLayer : ℕ) (ue : Bool)
    (hn : 1 ≤ nLayer) :
    (∀ l, (buildRelaNet mk nLayer ue).getLast? = some l →
      l.update_edge = false ∧
      ∀ (node : ℕ → V) (edge : ℕ → ℕ → E), (l.forward node edge).2 = edge) ∧
    (∀ i, i < nLayer - 1 → ∀ l,
      (buildRelaNet mk nLayer ue)[i]? = some l → l.update_edge = ue) ∧
    (∀ (l : RelaFusionLayerM V E M) (node : ℕ → V) (edge : ℕ → ℕ → E),
      l.update_edge = true →
      (l.forward node edge).2 = fun i j =>
        l.norm_edge (edge i j +
          l.proj_edge (l.proj_memory (edge i j) (node j) (node i)))) := by
  refine ⟨?_, ?_, ?_⟩
  · intro l hl
    obtain ⟨m, rfl⟩ : ∃ m, nLayer = m + 1 := ⟨nLayer - 1, by omega⟩
    rw [buildRelaNet, List.range_succ, List.map_append] at hl
    simp only [List.map_cons, List.map_nil] at hl
    rw [List.getLast?_concat] at hl
    simp only [Option.some.injEq] at hl
    subst hl
    constructor
    · simp
    · intro node edge
      simp [RelaFusionLayerM.forward, RelaFusionLayerM.buildMemory]
  · intro i hi l hl
    rw [buildRelaNet, List.getElem?_map] at hl
    rw [List.getElem?_range (by omega)] at hl
    simp only [Option.map_some', Option.some.injEq] at hl
    subst hl
    simp [show i ≠ nLayer - 1 by omega]
  · intro l node edge hT
    simp [RelaFusionLayerM.forward, RelaFusionLayerM.buildMemory, hT]

/-- Witness for C9 with a two-layer net over `ℕ`-valued rows. -/
theorem MIND_C9_edge_update_gating_witness :
    (1 ≤ 2) ∧
    ((∀ l, (buildRelaNet
        (fun _ => (⟨true, fun e a b => e + a + b, id, id, fun ns _ => ns⟩ :
          RelaFusionLayerM ℕ ℕ ℕ)) 2 true).getLast? = some l →
      l.update_edge = false ∧
      ∀ (node : ℕ → ℕ) (edge : ℕ → ℕ → ℕ), (l.forward node edge).2 = edge) ∧
    (∀ i, i < 2 - 1 → ∀ l,
      (buildRelaNet
        (fun _ => (⟨true, fun e a b => e + a + b, id, id, fun ns _ => ns⟩ :
          RelaFusionLayerM ℕ ℕ ℕ)) 2 true)[i]? = some l →
      l.update_edge = true) ∧
    (∀ (l : RelaFusionLayerM ℕ ℕ ℕ) (node : ℕ → ℕ) (edge : ℕ → ℕ → ℕ),
      l.update_edge = true →
      (l.forward node edge).2 = fun i j =>
        l.norm_edge (edge i j +
          l.proj_edge (l.proj_memory (edge i j) (node j) (node i))))) :=
  ⟨by decide,
    MIND_C9_edge_update_gating
      (fun _ => (⟨true, fun e a b => e + a + b, id, id, fun ns _ => ns⟩ :
        RelaFusionLayerM ℕ ℕ ℕ)) 2 true (by decide)⟩

/-! ## Claim C10: the bezier velocity is the exact curve derivative -/

theorem bezier_curve_eval (P : ℕ → ℝ) (t : ℝ) :
    bezier_curve P t = (bezPoly P).eval t := by
  unfold bezier_curve bezPoly
  rw [Polynomial.eval_finset_sum]
  refine Finset.sum_congr rfl fun i _ => ?_
  simp only [Polynomial.eval_mul, Polynomial.eval_pow, Polynomial.eval_sub,
    Polynomial.eval_one, Polynomial.eval_C, Polynomial.eval_X]
  ring

set_option maxHeartbeats 3200000 in
theorem derivative_bezPoly (P : ℕ → ℝ) :
    Polynomial.derivative (bezPoly P) =
      Polynomial.C (7 : ℝ) * ∑ i in Finset.range 7,
        Polynomial.C ((Nat.choose 6 i : ℝ) * (P (i + 1) - P i)) *
          (1 - Polynomial.X) ^ (6 - i) * Polynomial.X ^ i := by
  have c70 : Nat.choose 7 0 = 1 := by decide
  have c71 : Nat.choose 7 1 = 7 := by decide
  have c72 : Nat.choose 7 2 = 21 := by decide
  have c73 : Nat.choose 7 3 = 35 := by decide
  have c74 : Nat.choose 7 4 = 35 := by decide
  have c75 : Nat.choose 7 5 = 21 := by decide
  have c76 : Nat.choose 7 6 = 7 := by decide
  have c77 : Nat.choose 7 7 = 1 := by decide
  have c60 : Nat.choose 6 0 = 1 := by decide
  have c61 : Nat.choose 6 1 = 6 := by decide
  have c62 : Nat.choose 6 2 = 15 := by decide
  have c63 : Nat.choose 6 3 = 20 := by decide
  have c64 : Nat.choose 6 4 = 15 := by decide
  have c65 : Nat.choose 6 5 = 6 := by decide
  have c66 : Nat.choose 6 6 = 1 := by decide
  unfold bezPoly
  simp only [Finset.sum_range_succ, Finset.sum_range_zero, zero_add,
    c70, c71, c72, c73, c74, c75, c76, c77, c60, c61, c62, c63, c64, c65, c66]
  norm_num [Polynomial.derivative_add, Polynomial.derivative_mul,
    Polynomial.derivative_pow, Polynomial.derivative_C, Polynomial.derivative_X,
    Polynomial.derivative_sub, Polynomial.derivative_one,
    Polynomial.derivative_ofNat, Polynomial.derivative_natCast,
    Polynomial.C_mul, map_sub, Polynomial.C_1, map_ofNat]
  ring

theorem deriv_bezier_curve (P : ℕ → ℝ) (t : ℝ) :
    deriv (fun s => bezier_curve P s) t =
      (7 : ℝ) * ∑ i in Finset.range 7,
        (Nat.choose 6 i : ℝ) * (1 - t) ^ (6 - i) * t ^ i * (P (i + 1) - P i) := by
  have h1 : (fun s => bezier_curve P s) = fun s => (bezPoly P).eval s :=
    funext fun s => bezier_curve_eval P s
  rw [h1, Polynomial.deriv, derivative_bezPoly]
  rw [Polynomial.eval_mul, Polynomial.eval_C, Polynomial.eval_finset_sum]
  congr 1
  refine Finset.sum_congr rfl fun i _ => ?_
  simp only [Polynomial.eval_mul, Polynomial.eval_pow, Polynomial.eval_sub,
    Polynomial.eval_one, Polynomial.eval_C, Polynomial.eval_X]
  ring

/-- C10 (confirmed): applying the degree-6 Bernstein derivative matrix
to the first differences of the control points reproduces the exact
analytic first derivative of the degree-7 Bezier position curve at every
sample time, and hence the emitted velocity equals that derivative
divided by `future_steps * 0.1`. -/
theorem MIND_C10_bezier_velocity_is_derivative (future_steps : ℕ)
    (P : ℕ → ℝ) (j : ℕ) :
    (∑ i in Finset.range 7,
        matTp_bezier 7 future_steps j i * (P (i + 1) - P i)) =
      deriv (fun t => bezier_curve P t) (linT future_steps j) ∧
    bezier_vel future_steps P j =
      deriv (fun t => bezier_curve P t) (linT future_steps j) /
        ((future_steps : ℝ) * 0.1) := by
  have key : (∑ i in Finset.range 7,
      matTp_bezier 7 future_steps j i * (P (i + 1) - P i)) =
      deriv (fun t => bezier_curve P t) (linT future_steps j) := by
    rw [deriv_bezier_curve]
    rw [Finset.mul_sum]
    refine Finset.sum_congr rfl fun i _ => ?_
    unfold matTp_bezier
    norm_num
    ring
  exact ⟨key, by rw [bezier_vel, key]⟩

/-! ## Claim C7: per-scene independence and ordering -/

theorem get?_append_length {β : Type _} (l : List β) (x : β) (r : List β) :
    (l ++ x :: r).get? l.length = some x := by
  induction l with
  | nil => rfl
  | cons a as ih => simpa using ih

theorem gatherM_range' {β : Type _} (ys : List β) :
    ∀ (xs zs : List β),
    gatherM (xs ++ ys ++ zs) (List.range' xs.length ys.length) = some ys := by
  induction ys with
  | nil => intro xs zs; simp [gatherM, List.range', List.mapM.loop]
  | cons y ys ih =>
    intro xs zs
    rw [List.length_cons, List.range'_succ]
    unfold gatherM
    rw [List.mapM_cons]
    have h1 : (xs ++ (y :: ys) ++ zs).get? xs.length = some y := by
      have := get?_append_length xs y (ys ++ zs)
      simpa [List.append_assoc] using this
    have h2 : (List.range' (xs.length + 1) ys.length).mapM
        (fun i => (xs ++ (y :: ys) ++ zs).get? i) = some ys := by
      have := ih (xs ++ [y]) zs
      unfold gatherM at this
      simpa [List.append_assoc, List.length_append] using this
    rw [h1, h2]
    rfl

theorem FusionNetM_scene_on_ranges {α ρ : Type _} (net : FusionNetM α ρ)
    (preA sca restA preL scl restL : List α) (r : ρ) :
    net.scene ((preA ++ sca ++ restA).map net.projActor)
      ((preL ++ scl ++ restL).map net.projLane)
      (List.range' preA.length sca.length) (List.range' preL.length scl.length) r
      = some (net.sceneRef (sca, scl, r)) := by
  have g1 : gatherM (preA.map net.projActor ++ (sca.map net.projActor ++
        restA.map net.projActor))
      (List.range' preA.length sca.length) = some (sca.map net.projActor) := by
    have := gatherM_range' (sca.map net.projActor) (preA.map net.projActor)
      (restA.map net.projActor)
    simpa [List.append_assoc, List.length_map] using this
  have g2 : gatherM (preL.map net.projLane ++ (scl.map net.projLane ++
        restL.map net.projLane))
      (List.range' preL.length scl.length) = some (scl.map net.projLane) := by
    have := gatherM_range' (scl.map net.projLane) (preL.map net.projLane)
      (restL.map net.projLane)
    simpa [List.append_assoc, List.length_map] using this
  unfold FusionNetM.scene FusionNetM.sceneRef
  simp [g1, g2, List.length_range', List.append_assoc, List.length_map]

theorem FusionNetM_loop {α ρ : Type _} (net : FusionNetM α ρ)
    (scenes : List (List α × List α × ρ)) :
    ∀ (preA preL : List α),
    ((rangesFrom preA.length (scenes.map (·.1))).zip
        ((rangesFrom preL.length (scenes.map (·.2.1))).zip
          (scenes.map (·.2.2)))).mapM
      (fun t => net.scene
        ((preA ++ (scenes.map (·.1)).flatten).map net.projActor)
        ((preL ++ (scenes.map (·.2.1)).flatten).map net.projLane)
        t.1 t.2.1 t.2.2)
      = some (scenes.map net.sceneRef) := by
  induction scenes with
  | nil => intro preA preL; simp [rangesFrom, List.mapM.loop]
  | cons sc rest ih =>
    intro preA preL
    simp only [List.map_cons, rangesFrom, List.zip_cons_cons, List.mapM_cons,
      List.flatten_cons]
    rw [show preA ++ (sc.1 ++ (rest.map (·.1)).flatten)
        = (preA ++ sc.1) ++ (rest.map (·.1)).flatten from
      (List.append_assoc _ _ _).symm]
    rw [show preL ++ (sc.2.1 ++ (rest.map (·.2.1)).flatten)
        = (preL ++ sc.2.1) ++ (rest.map (·.2.1)).flatten from
      (List.append_assoc _ _ _).symm]
    have hfirst := FusionNetM_scene_on_ranges net preA sc.1
      ((rest.map (·.1)).flatten) preL sc.2.1 ((rest.map (·.2.1)).flatten) sc.2.2
    have hrest := ih (preA ++ sc.1) (preL ++ sc.2.1)
    rw [List.length_append, List.length_append] at hrest
    rw [hfirst, hrest]
    rfl

theorem FusionNetM_forward_batched {α ρ : Type _} (net : FusionNetM α ρ)
    (scenes : List (List α × List α × ρ)) :
    net.forward ((scenes.map (·.1)).flatten) (rangesFrom 0 (scenes.map (·.1)))
      ((scenes.map (·.2.1)).flatten) (rangesFrom 0 (scenes.map (·.2.1)))
      (scenes.map (·.2.2))
      = some ((scenes.map (fun sc => (net.sceneRef sc).1)).flatten,
          (scenes.map (fun sc => (net.sceneRef sc).2.1)).flatten,
          (scenes.map (fun sc => (net.sceneRef sc).2.2)).flatten) := by
  have hloop := FusionNetM_loop net scenes ([] : List α) ([] : List α)
  simp only [List.length_nil, List.nil_append] at hloop
  unfold FusionNetM.forward
  dsimp only
  rw [hloop]
  simp [List.map_map, Function.comp_def]

theorem FusionNetM_forward_single {α ρ : Type _} (net : FusionNetM α ρ)
    (sc : List α × List α × ρ) :
    net.forward sc.1 [List.range' 0 sc.1.length]
      sc.2.1 [List.range' 0 sc.2.1.length] [sc.2.2]
      = some (net.sceneRef sc) := by
  have := FusionNetM_forward_batched net [sc]
  simpa [rangesFrom] using this

theorem SceneDecoderM_loop {γ δ : Type _} (dec : SceneDecoderM γ δ)
    (ds : List (γ × List γ × γ × γ)) :
    ∀ (preC preT : List γ) (preA : List γ), preC.length = preT.length →
    (List.enumFrom preC.length
        (rangesFrom preA.length (ds.map (·.2.1)))).mapM
      (fun p => do
        let c ← (preC ++ ds.map (·.1)).get? p.1
        let as ← gatherM (preA ++ (ds.map (·.2.1)).flatten) p.2
        let tg ← (preT ++ ds.map
            (fun sc => dec.projTgt (sc.2.2.1, dec.projRpe sc.2.2.2))).get? p.1
        pure (dec.decodeScene c as tg))
      = some (ds.map dec.sceneRef) := by
  induction ds with
  | nil => intro preC preT preA h; simp [rangesFrom, List.mapM.loop]
  | cons sc rest ih =>
    intro preC preT preA hlen
    simp only [List.map_cons, rangesFrom, List.enumFrom, List.mapM_cons,
      List.flatten_cons]
    have hc : (preC ++ sc.1 :: rest.map (·.1)).get? preC.length = some sc.1 :=
      get?_append_length _ _ _
    have hg : gatherM (preA ++ (sc.2.1 ++ (rest.map (·.2.1)).flatten))
        (List.range' preA.length sc.2.1.length) = some sc.2.1 := by
      have := gatherM_range' sc.2.1 preA ((rest.map (·.2.1)).flatten)
      simpa [List.append_assoc] using this
    have ht : (preT ++ dec.projTgt (sc.2.2.1, dec.projRpe sc.2.2.2) ::
        rest.map (fun sc => dec.projTgt (sc.2.2.1, dec.projRpe sc.2.2.2))).get?
          preC.length = some (dec.projTgt (sc.2.2.1, dec.projRpe sc.2.2.2)) := by
      rw [hlen]
      exact get?_append_length _ _ _
    have hrest := ih (preC ++ [sc.1])
      (preT ++ [dec.projTgt (sc.2.2.1, dec.projRpe sc.2.2.2)])
      (preA ++ sc.2.1) (by simp [hlen])
    simp only [List.length_append, List.length_cons, List.length_nil,
      List.append_assoc, List.singleton_append, Nat.zero_add] at hrest
    rw [hc, hg, ht, hrest]
    rfl

theorem SceneDecoderM_forward_batched {γ δ : Type _} (dec : SceneDecoderM γ δ)
    (ds : List (γ × List γ × γ × γ)) :
    dec.forward (ds.map (·.1)) ((ds.map (·.2.1)).flatten)
      (rangesFrom 0 (ds.map (·.2.1))) (ds.map (·.2.2.1)) (ds.map (·.2.2.2))
      = some (ds.map dec.sceneRef) := by
  unfold SceneDecoderM.forward
  have htgt : ((ds.map (·.2.2.1)).zip
      ((ds.map (·.2.2.2)).map dec.projRpe)).map dec.projTgt
      = ds.map (fun sc => dec.projTgt (sc.2.2.1, dec.projRpe sc.2.2.2)) := by
    simp [List.map_map, List.zip_map', Function.comp]
  rw [htgt]
  have hl := SceneDecoderM_loop dec ds ([] : List γ) ([] : List γ)
    ([] : List γ) rfl
  simp only [List.length_nil, List.nil_append] at hl
  exact hl

theorem SceneDecoderM_forward_single {γ δ : Type _} (dec : SceneDecoderM γ δ)
    (sc : γ × List γ × γ × γ) :
    dec.forward [sc.1] sc.2.1 [List.range' 0 sc.2.1.length]
      [sc.2.2.1] [sc.2.2.2] = some [dec.sceneRef sc] := by
  have := SceneDecoderM_forward_batched dec [sc]
  simpa [rangesFrom] using this

/-- C7 (confirmed, at the data-flow level with the learned modules
abstract): per-scene processing is independent and the per-scene results
are concatenated in input order.  For both `FusionNet.forward` and
`SceneDecoder.forward`: a ragged batch assembled from per-scene rows
with the canonical contiguous index lists maps to exactly the
concatenation (in order) of the per-scene reference results, and running
the same model on any single scene alone yields that scene's reference
result — so each scene's slice of the batched output equals the
batch-size-1 run. -/
theorem MIND_C7_scene_independence {α ρ γ δ : Type}
    (net : FusionNetM α ρ) (dec : SceneDecoderM γ δ)
    (scenes : List (List α × List α × ρ))
    (ds : List (γ × List γ × γ × γ)) :
    (net.forward ((scenes.map (·.1)).flatten)
        (rangesFrom 0 (scenes.map (·.1)))
        ((scenes.map (·.2.1)).flatten)
        (rangesFrom 0 (scenes.map (·.2.1)))
        (scenes.map (·.2.2))
      = some ((scenes.map (fun sc => (net.sceneRef sc).1)).flatten,
          (scenes.map (fun sc => (net.sceneRef sc).2.1)).flatten,
          (scenes.map (fun sc => (net.sceneRef sc).2.2)).flatten)) ∧
    (∀ sc : List α × List α × ρ,
      net.forward sc.1 [List.range' 0 sc.1.length]
        sc.2.1 [List.range' 0 sc.2.1.length] [sc.2.2]
        = some (net.sceneRef sc)) ∧
    (dec.forward (ds.map (·.1)) ((ds.map (·.2.1)).flatten)
        (rangesFrom 0 (ds.map (·.2.1))) (ds.map (·.2.2.1)) (ds.map (·.2.2.2))
      = some (ds.map dec.sceneRef)) ∧
    (∀ sc : γ × List γ × γ × γ,
      dec.forward [sc.1] sc.2.1 [List.range' 0 sc.2.1.length]
        [sc.2.2.1] [sc.2.2.2] = some [dec.sceneRef sc]) :=
  ⟨FusionNetM_forward_batched net scenes,
    fun sc => FusionNetM_forward_single net sc,
    SceneDecoderM_forward_batched dec ds,
    fun sc => SceneDecoderM_forward_single dec sc⟩
